import Mathlib

set_option maxRecDepth 100000

/-!
Verification of the media-session pipeline of the `media_sockets` service:
G.711 A-law codec wrappers (`src/codecs.py`), the ingress jitter buffer and
egress output buffer (`src/jitter_buffer.py`), the paced RTP write loop,
session registration and teardown (`main.py`), and the local-VAD /
response-dispatch logic of the dialog client (`src/audio_websocket_client.py`).

Each Python routine is embedded shallowly: pure byte processing becomes a
function on `List Nat` (one entry per byte, each < 256), stateful objects
become explicit state records with one Lean function per method, and code
that can raise returns `Option` (`none` = the exception).  Machine integers
are modelled as `Nat` with explicit `% 2^16` / `% 2^32` where the Python code
masks with `& 0xFFFF` / `& 0xFFFFFFFF`.
-/

/-! ## G.711 A-law codec (`src/codecs.py`, backed by CPython `audioop`)

`codecs.alaw_to_pcm16` and `codecs.pcm16_to_alaw` delegate to
`audioop.alaw2lin(data, 2)` and `audioop.lin2alaw(data, 2)`.  The audioop C
implementation decodes a byte with the table `st_alaw2lin16` (equivalently
the closed formula below, checked against audioop for all 256 bytes) and
encodes a 16-bit sample by arithmetically shifting it right by 3 bits and
feeding the 13-bit result to `st_linear2alaw` (checked against audioop for
all 65536 samples). -/

/-- Segment end table of the A-law encoder (`seg_aend` in audioop.c). -/
def seg_aend : List Nat := [0x1F, 0x3F, 0x7F, 0xFF, 0x1FF, 0x3FF, 0x7FF, 0xFFF]

/-- Index of the first segment end that is ≥ the magnitude (audioop `search`);
8 when the magnitude exceeds every segment end. -/
def alawSegSearch (val : Nat) : Nat :=
  ((seg_aend.findIdx? (fun t => val ≤ t)).getD 8)

/-- A-law decode of one byte to a linear 16-bit sample
(audioop `st_alaw2lin16` table, written as the generating formula). -/
def st_alaw2linear16 (b : Nat) : Int :=
  let a := b ^^^ 0x55
  let t := a &&& 0xF
  let seg := (a &&& 0x70) >>> 4
  let t := if seg = 0 then (t + t + 1) <<< 3 else (t + t + 1 + 32) <<< (seg + 2)
  if a &&& 0x80 ≠ 0 then (t : Int) else -(t : Int)

/-- A-law encode of a 13-bit two's-complement value
(audioop `st_linear2alaw`): sign mask 0xD5 for non-negative input, else
0x55 with the magnitude taken as `-v - 1`; then segment lookup and
quantisation-bit extraction. -/
def st_linear2alaw (pcm13 : Int) : Nat :=
  let mask : Nat := if 0 ≤ pcm13 then 0xD5 else 0x55
  let v : Nat := if 0 ≤ pcm13 then pcm13.toNat else (-pcm13 - 1).toNat
  let seg := alawSegSearch v
  if 8 ≤ seg then 0x7F ^^^ mask
  else
    let shift := if seg < 2 then 1 else seg
    ((seg <<< 4) ||| ((v >>> shift) &&& 0xF)) ^^^ mask

/-- Little-endian bytes of a 16-bit sample, as audioop stores PCM16
(`v` is reduced mod 2^16 exactly as the C cast does). -/
def int16ToLEBytes (v : Int) : List Nat :=
  let u := (v % 65536).toNat
  [u % 256, u / 256]

/-- Reassemble a signed 16-bit sample from its little-endian bytes. -/
def leBytesToInt16 (lo hi : Nat) : Int :=
  let u := lo % 256 + 256 * (hi % 256)
  if u < 32768 then (u : Int) else (u : Int) - 65536

/-- `codecs.alaw_to_pcm16`: decode each A-law byte to two little-endian
PCM16 bytes.  The Python guard `if not data: return b""` is the `[]` case. -/
def alaw_to_pcm16 : List Nat → List Nat
  | [] => []
  | b :: rest => int16ToLEBytes (st_alaw2linear16 b) ++ alaw_to_pcm16 rest

/-- Body of `audioop.lin2alaw(data, 2)` on even-length input: encode each
little-endian sample pair to one A-law byte.  (`pcm16_to_alaw` rejects odd
lengths before this runs, so the one-byte-left case is unreachable.) -/
def lin2alaw : List Nat → List Nat
  | lo :: hi :: rest => st_linear2alaw (Int.fdiv (leBytesToInt16 lo hi) 8) :: lin2alaw rest
  | _ => []

/-- `codecs.pcm16_to_alaw`: empty input returns empty, odd length raises
`ValueError` (modelled as `none`), otherwise encode. -/
def pcm16_to_alaw (data : List Nat) : Option (List Nat) :=
  if data.isEmpty then some []
  else if data.length % 2 ≠ 0 then none
  else some (lin2alaw data)

/-- Decoding one A-law byte and re-encoding the resulting sample pair
reproduces the byte, for every byte value. -/
theorem alaw_byte_roundtrip :
    ∀ b, b < 256 → lin2alaw (int16ToLEBytes (st_alaw2linear16 b)) = [b] := by
  decide

/-- `alaw_to_pcm16` produces exactly one sample pair per input byte. -/
theorem alaw_to_pcm16_length (a : List Nat) :
    (alaw_to_pcm16 a).length = 2 * a.length := by
  induction a with
  | nil => rfl
  | cons b rest ih =>
      simp [alaw_to_pcm16, int16ToLEBytes, ih]
      omega

/-- Re-encoding the decoded stream gives back the A-law bytes. -/
theorem lin2alaw_alaw_to_pcm16 (a : List Nat) (h : ∀ b ∈ a, b < 256) :
    lin2alaw (alaw_to_pcm16 a) = a := by
  induction a with
  | nil => rfl
  | cons b rest ih =>
      have hb : b < 256 := h b (List.mem_cons_self b rest)
      have hbyte := alaw_byte_roundtrip b hb
      have hrest : lin2alaw (alaw_to_pcm16 rest) = rest :=
        ih (fun x hx => h x (List.mem_cons_of_mem b hx))
      simp only [alaw_to_pcm16, int16ToLEBytes] at *
      simp only [List.cons_append, List.nil_append, lin2alaw] at *
      simp_all

/-- C9: the A-law round trip is a fixed point — decoding a byte string from
A-law to PCM16 with `alaw_to_pcm16` and re-encoding it with `pcm16_to_alaw`
reproduces the original A-law bytes (and raises nothing). -/
theorem c9_alaw_roundtrip (a : List Nat) (h : ∀ b ∈ a, b < 256) :
    pcm16_to_alaw (alaw_to_pcm16 a) = some a := by
  cases a with
  | nil => rfl
  | cons b rest =>
      have hlen := alaw_to_pcm16_length (b :: rest)
      have hne : (alaw_to_pcm16 (b :: rest)).isEmpty = false := by
        cases hh : alaw_to_pcm16 (b :: rest) with
        | nil => rw [hh] at hlen; simp at hlen
        | cons x xs => rfl
      have heven : (alaw_to_pcm16 (b :: rest)).length % 2 = 0 := by
        rw [hlen]; omega
      rw [pcm16_to_alaw, hne, if_neg (by simp)]
      simp only [heven]
      rw [lin2alaw_alaw_to_pcm16 (b :: rest) h]
      simp

/-- Closed witness for C9 at a concrete A-law byte string. -/
theorem c9_alaw_roundtrip_witness :
    pcm16_to_alaw (alaw_to_pcm16 [0xD5, 0x55, 0, 255, 128]) = some [0xD5, 0x55, 0, 255, 128] :=
  c9_alaw_roundtrip [0xD5, 0x55, 0, 255, 128] (by decide)

/-- C10: `pcm16_to_alaw` raises `ValueError` (returns `none`) exactly on
non-empty inputs of odd length; the empty input returns the empty string;
and `alaw_to_pcm16` is total (it never raises) and returns exactly two
output bytes per input byte. -/
theorem c10_codec_error_behavior :
    (∀ d : List Nat, pcm16_to_alaw d = none ↔ (d ≠ [] ∧ d.length % 2 ≠ 0))
    ∧ pcm16_to_alaw [] = some []
    ∧ (∀ d : List Nat, (alaw_to_pcm16 d).length = 2 * d.length) := by
  refine ⟨?_, rfl, alaw_to_pcm16_length⟩
  intro d
  cases d with
  | nil => simp [pcm16_to_alaw]
  | cons x xs =>
      simp only [pcm16_to_alaw, List.isEmpty_cons, Bool.false_eq_true, if_false]
      by_cases hpar : (x :: xs).length % 2 = 0 <;> simp [hpar]

/-! ## Jitter buffer and output buffer (`src/jitter_buffer.py`)

`JitterBuffer` keeps a deque of `(timestamp, frame)` pairs; the timestamp is
wall-clock bookkeeping only (it is never read back except in a log line), so
frames are modelled directly.  `add_frame` appends and, when the deque holds
more than `JITTER_BUFFER_MAX_FRAMES` entries, pops and discards the oldest
frame with a warning; the `dropped` field collects exactly the frames that
take that warning branch.  With `ENABLE_JITTER_BUFFER` false the frame is
passed straight to the output callback instead (second component).
`emitOne` is the `_output_loop` body in the depth ≥ target case: pop the
oldest frame and hand it to the output callback. -/

structure JitterBuffer where
  buffer : List (List Nat)
  dropped : List (List Nat)
  totalFramesReceived : Nat
  totalFramesOutput : Nat
deriving DecidableEq

def JitterBuffer.emptyState : JitterBuffer := ⟨[], [], 0, 0⟩

/-- `JitterBuffer.add_frame` (jitter_buffer.py lines 52-97).  Returns the new
state, the frame forwarded directly when the buffer is disabled, and the
frame dropped by the overflow branch, if any. -/
def JitterBuffer.add_frame (enable : Bool) (maxFrames : Nat) (jb : JitterBuffer)
    (f : List Nat) : JitterBuffer × Option (List Nat) × Option (List Nat) :=
  if enable = false then (jb, some f, none)
  else
    let buf := jb.buffer ++ [f]
    if maxFrames < buf.length then
      ({ buffer := buf.tail, dropped := jb.dropped ++ buf.take 1,
         totalFramesReceived := jb.totalFramesReceived + 1,
         totalFramesOutput := jb.totalFramesOutput }, none, buf.head?)
    else
      ({ jb with buffer := buf,
                 totalFramesReceived := jb.totalFramesReceived + 1 }, none, none)

/-- One emission step of `JitterBuffer._output_loop` (lines 110-115): when
frames are available, pop the oldest and pass it to the output callback. -/
def JitterBuffer.emitOne (jb : JitterBuffer) : JitterBuffer × Option (List Nat) :=
  match jb.buffer with
  | [] => (jb, none)
  | f :: rest =>
      ({ jb with buffer := rest, totalFramesOutput := jb.totalFramesOutput + 1 }, some f)

/-- An observable jitter-buffer operation: a frame arriving via `add_frame`,
or the emitter loop taking its pop-and-output step. -/
inductive JbOp where
  | add (f : List Nat)
  | emit
deriving DecidableEq

/-- Run a sequence of operations against the (enabled) jitter buffer,
recording every frame that leaves the deque, in removal order, tagged
`true` when it went to the output callback and `false` when the overflow
branch discarded it. -/
def JitterBuffer.runOps (maxFrames : Nat) (jb : JitterBuffer) :
    List JbOp → JitterBuffer × List (Bool × List Nat)
  | [] => (jb, [])
  | JbOp.add f :: rest =>
      let r := jb.add_frame true maxFrames f
      let rec' := JitterBuffer.runOps maxFrames r.1 rest
      (rec'.1, (r.2.2.map (fun d => (false, d))).toList ++ rec'.2)
  | JbOp.emit :: rest =>
      let r := jb.emitOne
      let rec' := JitterBuffer.runOps maxFrames r.1 rest
      (rec'.1, (r.2.map (fun f => (true, f))).toList ++ rec'.2)

/-- The frames accepted by a run, in arrival order. -/
def acceptedFrames : List JbOp → List (List Nat)
  | [] => []
  | JbOp.add f :: rest => f :: acceptedFrames rest
  | JbOp.emit :: rest => acceptedFrames rest

/-- One `add_frame` call removes at most the head of the deque: the possible
overflow drop followed by the new buffer is the old buffer with the new frame
appended. -/
theorem add_frame_trace (m : Nat) (jb : JitterBuffer) (f : List Nat) :
    ((jb.add_frame true m f).2.2.map (fun d => (false, d))).toList.map Prod.snd
      ++ (jb.add_frame true m f).1.buffer = jb.buffer ++ [f] := by
  simp only [JitterBuffer.add_frame]
  by_cases hover : m < (jb.buffer ++ [f]).length
  · simp only [hover]
    cases hb : jb.buffer ++ [f] with
    | nil => simp at hb
    | cons x xs => simp [hb]
  · have hover' : ¬ m < jb.buffer.length + 1 := by simpa using hover
    simp [hover']

/-- One `emitOne` call removes at most the head of the deque. -/
theorem emitOne_trace (jb : JitterBuffer) :
    ((jb.emitOne).2.map (fun f => (true, f))).toList.map Prod.snd
      ++ (jb.emitOne).1.buffer = jb.buffer := by
  cases hb : jb.buffer with
  | nil => simp [JitterBuffer.emitOne, hb]
  | cons x xs => simp [JitterBuffer.emitOne, hb]

/-- Order preservation: every frame leaves the deque (emitted or dropped) in
arrival order, so the removal trace followed by the residual buffer is the
arrival sequence itself. -/
theorem jitterBuffer_removal_order (maxFrames : Nat) (ops : List JbOp) :
    ∀ jb : JitterBuffer,
      (jb.runOps maxFrames ops).2.map Prod.snd ++ (jb.runOps maxFrames ops).1.buffer
        = jb.buffer ++ acceptedFrames ops := by
  induction ops with
  | nil => intro jb; simp [JitterBuffer.runOps, acceptedFrames]
  | cons op rest ih =>
      intro jb
      cases op with
      | add f =>
          have htr := add_frame_trace maxFrames jb f
          simp only [JitterBuffer.runOps, acceptedFrames, List.map_append,
            List.append_assoc]
          rw [ih]
          rw [← List.append_assoc, htr]
          simp
      | emit =>
          have htr := emitOne_trace jb
          simp only [JitterBuffer.runOps, acceptedFrames, List.map_append,
            List.append_assoc]
          rw [ih]
          rw [← List.append_assoc, htr]

/-- C7: the ingress jitter buffer is FIFO with drop-oldest on overflow.
First conjunct (order preservation, any run): frames leave the deque in
arrival order, whether emitted downstream or dropped by overflow, so the k-th
frame emitted is the k-th accepted frame not removed by an overflow drop.
Second conjunct (the concrete scenario): with maximum depth 3, adding frames
F1..F5 before any emission and then running the emitter leaves exactly F3,
F4, F5 emitted in that order, F1 and F2 dropped, and the dropped-frame count
equal to 2 (two overflow warnings; `total_frames_received` 5 minus
`total_frames_output` 3). -/
theorem c7_jitter_fifo_drop_oldest :
    (∀ (maxFrames : Nat) (ops : List JbOp) (jb : JitterBuffer),
      (jb.runOps maxFrames ops).2.map Prod.snd ++ (jb.runOps maxFrames ops).1.buffer
        = jb.buffer ++ acceptedFrames ops)
    ∧ JitterBuffer.runOps 3 JitterBuffer.emptyState
        [JbOp.add [1], JbOp.add [2], JbOp.add [3], JbOp.add [4], JbOp.add [5],
         JbOp.emit, JbOp.emit, JbOp.emit]
      = (⟨[], [[1], [2]], 5, 3⟩,
         [(false, [1]), (false, [2]), (true, [3]), (true, [4]), (true, [5])]) :=
  ⟨fun m ops jb => jitterBuffer_removal_order m ops jb, by decide⟩

/-- `OutputBuffer` (`src/jitter_buffer.py` lines 183-340): deque of raw PCM
chunks with the same drop-oldest overflow rule as `JitterBuffer`
(`OUTPUT_BUFFER_MAX_FRAMES`); only the fields the claims read are kept. -/
structure OutputBuffer where
  buffer : List (List Nat)
  totalChunksReceived : Nat
deriving DecidableEq

/-- `OutputBuffer.add_chunk` (lines 213-244): append, and when the deque
exceeds the maximum pop and discard the oldest chunk with a warning; when the
buffer is disabled the chunk goes straight to the output callback. -/
def OutputBuffer.add_chunk (enable : Bool) (maxFrames : Nat) (ob : OutputBuffer)
    (c : List Nat) : OutputBuffer × Option (List Nat) :=
  if enable = false then (ob, some c)
  else
    let buf := ob.buffer ++ [c]
    if maxFrames < buf.length then
      ({ buffer := buf.tail, totalChunksReceived := ob.totalChunksReceived + 1 }, none)
    else
      ({ buffer := buf, totalChunksReceived := ob.totalChunksReceived + 1 }, none)

/-! ## asyncio queues of a session

`asyncio.Queue(maxsize=m)` is unbounded when `m ≤ 0`; `put_nowait` raises
`QueueFull` on a full bounded queue.  Every caller in this code base either
catches `QueueFull` and drops the incoming item (`make_send_pcm_callback`,
`AudioWebSocketClient.push_pcm`) or feeds an unbounded queue
(`AudioHandler.enqueue_audio`), so a put is modelled as: unchanged queue when
full, else append. -/
def putNowait (maxsize : Nat) (q : List (List Nat)) (x : List Nat) : List (List Nat) :=
  if 0 < maxsize ∧ maxsize ≤ q.length then q else q ++ [x]

/-- `main.py` line 291: `write_queue: asyncio.Queue[bytes] = asyncio.Queue()`
— created with no maxsize, i.e. unbounded. -/
def writeQueueMaxsize : Nat := 0

/-- `audio_handler.py` line 27: `self.audio_queue = asyncio.Queue()` —
created with no maxsize, i.e. unbounded. -/
def audioQueueMaxsize : Nat := 0

/-- `audio_websocket_client.py` line 104:
`self.pcm_queue: asyncio.Queue[bytes] = asyncio.Queue(maxsize=200)`. -/
def pcmQueueMaxsize : Nat := 200

/-- `constants.py`: `JITTER_BUFFER_MAX_FRAMES` defaults to 200. -/
def jitterBufferMaxFrames : Nat := 200

/-- `constants.py`: `OUTPUT_BUFFER_MAX_FRAMES` defaults to 200. -/
def outputBufferMaxFrames : Nat := 200

/-- C8 fails as stated: the playback audio queue (`AudioHandler.audio_queue`)
is created unbounded, and 201 successive `put_nowait` calls leave 201 entries
in it — more than the claimed maximum of 200.  (The RTP `write_queue` is
created with the same maxsize 0.) -/
theorem c8_counterexample :
    ((List.replicate 201 ([] : List Nat)).foldl (putNowait audioQueueMaxsize) []).length = 201
    ∧ ¬ ((List.replicate 201 ([] : List Nat)).foldl (putNowait audioQueueMaxsize) []).length ≤ 200
    ∧ writeQueueMaxsize = audioQueueMaxsize := by
  refine ⟨?_, ?_, rfl⟩ <;> decide

/-- C8 amended: the jitter buffer, the output buffer and the PCM queue to
the dialog client are each bounded by their explicit maximum of 200 entries
(drop-oldest for the two buffers, drop-incoming for the PCM queue), but the
playback audio queue and the RTP write queue are created with
`asyncio.Queue()` — maxsize 0, unbounded — and can exceed 200 entries. -/
theorem c8_amended :
    (∀ (jb : JitterBuffer) (f : List Nat), jb.buffer.length ≤ jitterBufferMaxFrames →
      ((jb.add_frame true jitterBufferMaxFrames f).1).buffer.length ≤ jitterBufferMaxFrames)
    ∧ (∀ (ob : OutputBuffer) (c : List Nat), ob.buffer.length ≤ outputBufferMaxFrames →
      ((ob.add_chunk true outputBufferMaxFrames c).1).buffer.length ≤ outputBufferMaxFrames)
    ∧ (∀ (q : List (List Nat)) (x : List Nat), q.length ≤ pcmQueueMaxsize →
      (putNowait pcmQueueMaxsize q x).length ≤ pcmQueueMaxsize)
    ∧ audioQueueMaxsize = 0 ∧ writeQueueMaxsize = 0
    ∧ ((List.replicate 201 ([] : List Nat)).foldl (putNowait 0) []).length = 201 := by
  refine ⟨?_, ?_, ?_, rfl, rfl, by decide⟩
  · intro jb f h
    simp only [JitterBuffer.add_frame, jitterBufferMaxFrames] at *
    by_cases hover : 200 < (jb.buffer ++ [f]).length
    · simp only [hover, if_true]
      cases hb : jb.buffer ++ [f] with
      | nil => simp at hb
      | cons x xs =>
          have := congrArg List.length hb
          simp at this ⊢
          omega
    · have hover' : ¬ 200 < jb.buffer.length + 1 := by simpa using hover
      simp [hover']
      omega
  · intro ob c h
    simp only [OutputBuffer.add_chunk, outputBufferMaxFrames] at *
    by_cases hover : 200 < (ob.buffer ++ [c]).length
    · simp only [hover, if_true]
      cases hb : ob.buffer ++ [c] with
      | nil => simp at hb
      | cons x xs =>
          have := congrArg List.length hb
          simp at this ⊢
          omega
    · have hover' : ¬ 200 < ob.buffer.length + 1 := by simpa using hover
      simp [hover']
      omega
  · intro q x h
    simp only [putNowait, pcmQueueMaxsize] at *
    by_cases h200 : 200 ≤ q.length
    · rw [if_pos ⟨by norm_num, h200⟩]
      exact h
    · rw [if_neg (fun hc => h200 hc.2)]
      simp
      omega

/-- Closed witness for C8 amended at the empty buffers and queues. -/
theorem c8_amended_witness :
    ((JitterBuffer.emptyState.add_frame true jitterBufferMaxFrames [0]).1).buffer.length
      ≤ jitterBufferMaxFrames
    ∧ (putNowait pcmQueueMaxsize [] [0]).length ≤ pcmQueueMaxsize :=
  ⟨c8_amended.1 JitterBuffer.emptyState [0] (by decide),
   c8_amended.2.2.1 [] [0] (by decide)⟩

/-! ## Paced RTP write loop (`main.py` `write_loop`, lines 51-203)

Each iteration dequeues one PCM chunk from the write queue and then:
increments `seq_out` (masked to 16 bits) *before* validating the chunk;
skips empty or odd-length chunks with a warning; advances `ts_out` by the
sample count (masked to 32 bits); encodes the chunk with `pcm16_to_alaw`
(skipping on `ValueError`); and sends one RTP packet built from
`pt & 0x7F`, `seq_out`, `ts_out` and the SSRC.  Wall-clock pacing (the
20 ms sleep) orders the packets but carries no data, so a run is modelled
as the fold below over the sequence of dequeued chunks; each emitted packet
is paired with the 0-based position of its chunk in that sequence. -/

structure TxState where
  seq_out : Nat
  ts_out : Nat
deriving DecidableEq

structure RtpPacket where
  pt : Nat
  seq : Nat
  ts : Nat
  ssrc : Nat
  payload : List Nat
deriving DecidableEq

/-- Negation of the skip test `len(data) == 0 or len(data) % 2 != 0`
(main.py line 87, with `DEFAULT_SAMPLE_WIDTH = 2`). -/
def validChunk (data : List Nat) : Bool :=
  !(data.length == 0 || data.length % 2 != 0)

/-- One iteration of `write_loop` on a dequeued chunk. -/
def writeLoopStep (pt ssrc : Nat) (st : TxState) (data : List Nat) :
    TxState × Option RtpPacket :=
  let seq' := (st.seq_out + 1) % 65536
  if validChunk data = false then ({ st with seq_out := seq' }, none)
  else
    let ts' := (st.ts_out + data.length / 2) % 4294967296
    match pcm16_to_alaw data with
    | none => ({ seq_out := seq', ts_out := ts' }, none)
    | some payload =>
        ({ seq_out := seq', ts_out := ts' },
         some { pt := pt &&& 127, seq := seq', ts := ts', ssrc := ssrc, payload := payload })

def writeLoopGo (pt ssrc : Nat) : TxState → Nat → List (List Nat) → TxState × List (Nat × RtpPacket)
  | st, _, [] => (st, [])
  | st, i, c :: rest =>
      let r := writeLoopStep pt ssrc st c
      let rec' := writeLoopGo pt ssrc r.1 (i + 1) rest
      (rec'.1, (r.2.map (fun p => (i, p))).toList ++ rec'.2)

/-- A full run of `write_loop` over the chunks dequeued, starting from the
seeded TX state; returns the final state and the emitted packets, each
tagged with the position of the chunk it came from. -/
def writeLoopRun (pt ssrc : Nat) (st : TxState) (chunks : List (List Nat)) :
    TxState × List (Nat × RtpPacket) :=
  writeLoopGo pt ssrc st 0 chunks

/-- Samples carried by the valid chunks of a dequeued prefix. -/
def sumSamples : List (List Nat) → Nat
  | [] => 0
  | c :: rest => (if validChunk c then c.length / 2 else 0) + sumSamples rest

/-- A chunk that passes the length test is encoded without `ValueError`. -/
theorem pcm16_to_alaw_of_valid (data : List Nat) (h : validChunk data = true) :
    pcm16_to_alaw data = some (lin2alaw data) := by
  simp only [validChunk, Bool.not_eq_true', Bool.or_eq_false_iff, beq_eq_false_iff_ne,
    ne_eq, bne_eq_false_iff_eq] at h
  obtain ⟨hne, hmod⟩ := h
  have hempty : data.isEmpty = false := by
    cases data with
    | nil => simp at hne
    | cons x xs => rfl
  simp [pcm16_to_alaw, hempty, hmod]

theorem writeLoopStep_invalid (pt ssrc : Nat) (st : TxState) (data : List Nat)
    (h : validChunk data = false) :
    writeLoopStep pt ssrc st data
      = ({ st with seq_out := (st.seq_out + 1) % 65536 }, none) := by
  simp [writeLoopStep, h]

theorem writeLoopStep_valid (pt ssrc : Nat) (st : TxState) (data : List Nat)
    (h : validChunk data = true) :
    writeLoopStep pt ssrc st data
      = (⟨(st.seq_out + 1) % 65536, (st.ts_out + data.length / 2) % 4294967296⟩,
         some ⟨pt &&& 127, (st.seq_out + 1) % 65536,
               (st.ts_out + data.length / 2) % 4294967296, ssrc, lin2alaw data⟩) := by
  simp [writeLoopStep, h, pcm16_to_alaw_of_valid data h]

/-- `seq_out` advances by exactly one per dequeued chunk, valid or not. -/
theorem writeLoopGo_seq_final (pt ssrc : Nat) (chunks : List (List Nat)) :
    ∀ (st : TxState) (i : Nat), st.seq_out < 65536 →
      (writeLoopGo pt ssrc st i chunks).1.seq_out
        = (st.seq_out + chunks.length) % 65536 := by
  induction chunks with
  | nil => intro st i h; simp [writeLoopGo, Nat.mod_eq_of_lt h]
  | cons c rest ih =>
      intro st i h
      by_cases hv : validChunk c
      · rw [writeLoopGo, writeLoopStep_valid pt ssrc st c hv]
        have := ih ⟨(st.seq_out + 1) % 65536, (st.ts_out + c.length / 2) % 4294967296⟩
          (i + 1) (Nat.mod_lt _ (by norm_num))
        simp only at this ⊢
        rw [this]
        simp only [List.length_cons]
        omega
      · rw [writeLoopGo, writeLoopStep_invalid pt ssrc st c (by simpa using hv)]
        have := ih { st with seq_out := (st.seq_out + 1) % 65536 }
          (i + 1) (Nat.mod_lt _ (by norm_num))
        simp only at this ⊢
        rw [this]
        simp only [List.length_cons]
        omega

/-- Per-packet characterization: the packet emitted for the chunk dequeued
at absolute position `j` carries `seq = (seq0 + (j - i) + 1) mod 2^16` and
`ts = (ts0 + samples of the valid chunks dequeued up to and including j)
mod 2^32`, where `i` is the position of the first chunk of the run. -/
theorem writeLoopGo_packets (pt ssrc : Nat) (chunks : List (List Nat)) :
    ∀ (st : TxState) (i : Nat), st.seq_out < 65536 → st.ts_out < 4294967296 →
      ∀ q ∈ (writeLoopGo pt ssrc st i chunks).2,
        i ≤ q.1
        ∧ q.2.seq = (st.seq_out + (q.1 - i) + 1) % 65536
        ∧ q.2.ts = (st.ts_out + sumSamples (chunks.take (q.1 - i + 1))) % 4294967296 := by
  induction chunks with
  | nil => intro st i hs ht q hq; simp [writeLoopGo] at hq
  | cons c rest ih =>
      intro st i hs ht q hq
      by_cases hv : validChunk c
      · rw [writeLoopGo, writeLoopStep_valid pt ssrc st c hv] at hq
        simp only [Option.map_some', Option.toList_some, List.cons_append,
          List.nil_append, List.mem_cons] at hq
        rcases hq with hq | hq
        · subst hq
          refine ⟨Nat.le_refl i, ?_, ?_⟩
          · simp
          · simp [sumSamples, hv]
        · have hrec := ih ⟨(st.seq_out + 1) % 65536, (st.ts_out + c.length / 2) % 4294967296⟩
            (i + 1) (Nat.mod_lt _ (by norm_num)) (Nat.mod_lt _ (by norm_num)) q hq
          obtain ⟨hle, hseq, hts⟩ := hrec
          refine ⟨Nat.le_of_succ_le hle, ?_, ?_⟩
          · simp only at hseq
            rw [hseq]
            have hsub : q.1 - i = (q.1 - (i + 1)) + 1 := by omega
            rw [hsub]
            omega
          · simp only at hts
            rw [hts]
            have hsub : q.1 - i + 1 = (q.1 - (i + 1) + 1) + 1 := by omega
            rw [hsub, List.take_succ_cons]
            simp only [sumSamples, hv, if_true]
            omega
      · rw [writeLoopGo, writeLoopStep_invalid pt ssrc st c (by simpa using hv)] at hq
        simp only [Option.map_none', Option.toList_none, List.nil_append] at hq
        have hrec := ih { st with seq_out := (st.seq_out + 1) % 65536 }
          (i + 1) (Nat.mod_lt _ (by norm_num)) ht q hq
        obtain ⟨hle, hseq, hts⟩ := hrec
        refine ⟨Nat.le_of_succ_le hle, ?_, ?_⟩
        · simp only at hseq
          rw [hseq]
          have hsub : q.1 - i = (q.1 - (i + 1)) + 1 := by omega
          rw [hsub]
          omega
        · simp only at hts
          rw [hts]
          have hsub : q.1 - i + 1 = (q.1 - (i + 1) + 1) + 1 := by omega
          rw [hsub, List.take_succ_cons]
          have hvf : validChunk c = false := by simpa using hv
          simp [sumSamples, hvf]

/-- The loop emits one packet per valid chunk and none for an invalid one:
the emitted chunk positions are exactly the positions whose chunk passes the
length test. -/
theorem writeLoopGo_indices (pt ssrc : Nat) (chunks : List (List Nat)) :
    ∀ (st : TxState) (i : Nat),
      (writeLoopGo pt ssrc st i chunks).2.map Prod.fst
        = ((List.range chunks.length).filter
            (fun k => validChunk (chunks.getD k []))).map (· + i) := by
  induction chunks with
  | nil => intro st i; simp [writeLoopGo]
  | cons c rest ih =>
      intro st i
      have hmapeq : ∀ l : List Nat, (l.map Nat.succ).map (· + i) = l.map (· + (i + 1)) := by
        intro l
        rw [List.map_map]
        have : ((· + i) ∘ Nat.succ) = (fun k : Nat => k + (i + 1)) := by
          funext k; simp [Nat.succ_eq_add_one]; omega
        rw [this]
      by_cases hv : validChunk c
      · rw [writeLoopGo, writeLoopStep_valid pt ssrc st c hv]
        simp only [Option.map_some', Option.toList_some, List.cons_append,
          List.nil_append, List.map_cons, List.length_cons, List.range_succ_eq_map,
          List.filter_cons, List.getD_cons_zero, hv, if_true]
        rw [ih]
        simp only [List.map_cons, Nat.zero_add]
        rw [List.filter_map, hmapeq]
        have : (fun k => validChunk ((c :: rest).getD k [])) ∘ Nat.succ
            = fun k => validChunk (rest.getD k []) := by
          funext k; simp [List.getD_cons_succ]
        rw [this]
      · have hvf : validChunk c = false := by simpa using hv
        rw [writeLoopGo, writeLoopStep_invalid pt ssrc st c hvf]
        simp only [Option.map_none', Option.toList_none, List.nil_append,
          List.length_cons, List.range_succ_eq_map, List.filter_cons,
          List.getD_cons_zero, hvf]
        rw [ih]
        simp only [Bool.false_eq_true, if_false]
        rw [List.filter_map, hmapeq]
        have : (fun k => validChunk ((c :: rest).getD k [])) ∘ Nat.succ
            = fun k => validChunk (rest.getD k []) := by
          funext k; simp [List.getD_cons_succ]
        rw [this]

/-- C4 as stated is false: `write_loop` increments `seq_out` before the
invalid-chunk test, so an empty chunk read between two transmissions consumes
a sequence number.  Seeding `seq_out = 1000`, `ts_out = 8000` and dequeuing a
valid 320-byte frame, an empty chunk, then another valid 320-byte frame emits
two packets with sequence numbers 1001 and 1003 — not consecutive mod 2^16. -/
theorem c4_counterexample :
    ((writeLoopRun 8 305419896 ⟨1000, 8000⟩
        [List.replicate 320 0, [], List.replicate 320 0]).2.map
          (fun q => (q.1, q.2.seq)))
      = [(0, 1001), (2, 1003)]
    ∧ ((1001 : Nat) + 1) % 65536 ≠ 1003 := by
  exact ⟨by decide, by decide⟩

/-- C4 amended: `seq_out` advances by exactly one per *dequeued* chunk,
transmitted or not, so the packet emitted for the chunk dequeued at position
`j` carries `seq = (seq0 + j + 1) mod 2^16`; consecutive transmitted packets
therefore differ in sequence by 1 plus the number of invalid (empty or
odd-length) chunks dequeued between them.  One packet is emitted per valid
chunk and none for an invalid one, and a transmitted packet's timestamp is
`ts0` plus the samples of all valid chunks dequeued so far (mod 2^32) — so
`ts` advances by exactly 160 per transmitted 320-byte frame, and by nothing
for invalid chunks. -/
theorem c4_seq_ts_amended (pt ssrc : Nat) (st : TxState) (chunks : List (List Nat))
    (hseq : st.seq_out < 65536) (hts : st.ts_out < 4294967296) :
    (writeLoopRun pt ssrc st chunks).1.seq_out = (st.seq_out + chunks.length) % 65536
    ∧ ((writeLoopRun pt ssrc st chunks).2.map Prod.fst
        = (List.range chunks.length).filter (fun k => validChunk (chunks.getD k [])))
    ∧ (∀ q ∈ (writeLoopRun pt ssrc st chunks).2,
        q.2.seq = (st.seq_out + q.1 + 1) % 65536
        ∧ q.2.ts = (st.ts_out + sumSamples (chunks.take (q.1 + 1))) % 4294967296) := by
  refine ⟨writeLoopGo_seq_final pt ssrc chunks st 0 hseq, ?_, ?_⟩
  · have h := writeLoopGo_indices pt ssrc chunks st 0
    simpa using h
  · intro q hq
    have h := writeLoopGo_packets pt ssrc chunks st 0 hseq hts q hq
    simpa using h.2

/-- Closed witness for the amended C4 at a concrete seeded state and queue. -/
theorem c4_seq_ts_amended_witness :
    (writeLoopRun 8 305419896 ⟨65530, 8000⟩
        [List.replicate 320 0, List.replicate 320 0]).1.seq_out
      = (65530 + 2) % 65536 :=
  (c4_seq_ts_amended 8 305419896 ⟨65530, 8000⟩
    [List.replicate 320 0, List.replicate 320 0] (by decide) (by decide)).1

/-! ## Dialog client response dispatch (`src/audio_websocket_client.py`)

Only the state the dispatched events read and write is modelled:
`_active_response_id`, the per-response chunk/byte counters, and the
`AudioHandler` playback state (its `running` flag, its `audio_queue`
contents and the `_pending_pcm` tail).  A Python string used in a truth
test is falsy when it is `None` or empty, hence `truthy` below.  Audio
deltas are taken already base64-decoded: the code checks the base64 text
for emptiness, and the text is empty exactly when the decoded bytes are. -/

structure ClientState where
  activeResponseId : Option String
  responseAudioChunks : Nat
  responseAudioBytes : Nat
  audioQueue : List (List Nat)
  handlerRunning : Bool
  pendingPcm : List Nat
deriving DecidableEq

/-- Python truthiness of an optional string. -/
def truthy : Option String → Bool
  | none => false
  | some s => !s.isEmpty

/-- `AudioHandler.interrupt_playback` (audio_handler.py lines 179-206):
stop the playback loop, drain `audio_queue`, clear the `_pending_pcm` tail. -/
def interruptPlayback (st : ClientState) : ClientState :=
  { st with handlerRunning := false, audioQueue := [], pendingPcm := [] }

/-- `AudioHandler.enqueue_audio` (audio_handler.py lines 41-65): start the
playback loop when it is not running and append the chunk to `audio_queue`
(the queue is unbounded, `put_nowait` cannot fail). -/
def enqueueAudio (st : ClientState) (chunk : List Nat) : ClientState :=
  { st with handlerRunning := true, audioQueue := st.audioQueue ++ [chunk] }

/-- `AudioWebSocketClient._begin_response` (lines 540-561): ignore a falsy
id; interrupt playback when switching away from a different active response;
make the id active and zero the per-response counters. -/
def beginResponse (st : ClientState) (responseId : Option String) : ClientState :=
  if truthy responseId = false then st
  else
    let st1 := if truthy st.activeResponseId && !(st.activeResponseId == responseId)
               then interruptPlayback st else st
    { st1 with activeResponseId := responseId,
               responseAudioChunks := 0, responseAudioBytes := 0 }

/-- The `response.audio.delta` branch of `receive_events` (lines 636-675):
an empty delta is only logged; when the delta carries a truthy id and no
response is active, `_begin_response` adopts that id; a chunk whose id
differs from the (truthy) active id is dropped; otherwise the counters are
bumped and the bytes are enqueued into the playback queue. -/
def handleAudioDelta (st : ClientState) (responseId : Option String)
    (delta : List Nat) : ClientState :=
  if delta.isEmpty then st
  else
    let st1 := if truthy responseId && !(truthy st.activeResponseId)
               then beginResponse st responseId else st
    if truthy st1.activeResponseId && truthy responseId
        && !(responseId == st1.activeResponseId) then st1
    else
      enqueueAudio
        { st1 with responseAudioChunks := st1.responseAudioChunks + 1,
                   responseAudioBytes := st1.responseAudioBytes + delta.length }
        delta

/-- C5 as stated is false: after an interruption cleared
`_active_response_id`, a `response.audio.delta` carrying id `r2` is *not*
dropped — the code adopts `r2` as the active response and enqueues the
chunk into the egress pipeline. -/
theorem c5_counterexample :
    (handleAudioDelta ⟨none, 0, 0, [], false, []⟩ (some "r2") [1, 2]).audioQueue = [[1, 2]]
    ∧ (handleAudioDelta ⟨none, 0, 0, [], false, []⟩ (some "r2") [1, 2]).activeResponseId
        = some "r2" := by
  exact ⟨by decide, by decide⟩

/-- C5 amended: a non-empty delta is dropped exactly when a (truthy) active
response exists and the delta carries a (truthy) id different from it; when
no response is active, a delta with truthy id R makes R the active response
and its chunk is enqueued; and a delta whose id equals the active id is
enqueued. -/
theorem c5_delta_amended (st : ClientState) (responseId : Option String)
    (delta : List Nat) (hne : delta ≠ []) :
    (truthy st.activeResponseId = true → truthy responseId = true →
      responseId ≠ st.activeResponseId → handleAudioDelta st responseId delta = st)
    ∧ (truthy st.activeResponseId = false → truthy responseId = true →
        (handleAudioDelta st responseId delta).activeResponseId = responseId
        ∧ (handleAudioDelta st responseId delta).audioQueue = st.audioQueue ++ [delta])
    ∧ (responseId = st.activeResponseId →
        (handleAudioDelta st responseId delta).audioQueue = st.audioQueue ++ [delta]) := by
  have hie : delta.isEmpty = false := by
    cases delta with
    | nil => exact absurd rfl hne
    | cons x xs => rfl
  refine ⟨?_, ?_, ?_⟩
  · intro ha hr hdiff
    have hbeq : (responseId == st.activeResponseId) = false :=
      beq_eq_false_iff_ne.mpr hdiff
    simp [handleAudioDelta, hie, ha, hr, hbeq]
  · intro ha0 hr
    simp [handleAudioDelta, beginResponse, enqueueAudio, hie, ha0, hr]
  · intro heq
    rw [heq]
    by_cases htru : truthy st.activeResponseId = true
    · simp [handleAudioDelta, enqueueAudio, hie, htru]
    · have htru' : truthy st.activeResponseId = false := by
        simpa using htru
      simp [handleAudioDelta, enqueueAudio, hie, htru']

/-- Closed witness for the amended C5: with active response `r1`, a delta of
response `r2` is dropped and the state is unchanged. -/
theorem c5_delta_amended_witness :
    handleAudioDelta ⟨some "r1", 0, 0, [], true, []⟩ (some "r2") [7]
      = ⟨some "r1", 0, 0, [], true, []⟩ :=
  (c5_delta_amended ⟨some "r1", 0, 0, [], true, []⟩ (some "r2") [7]
      (by decide)).1 (by decide) (by decide) (by decide)

/-! ## Local VAD and barge-in counter (`src/audio_websocket_client.py`)

`_calculate_rms` returns `sqrt(mean(samples^2)) / 32768` as a float; it is
exactly `0.0` precisely when every sample of the frame is zero (a sum of
squares of integers is zero only when all are zero, and that computation is
exact in floating point), and the claims only compare the RMS against `0`
and against the threshold, so the RMS reaching `_track_voice_activity` is
modelled as an exact rational.  The returned flag is the barge-in trigger:
when it fires, the caller interrupts playback and clears the active
response.  `VAD_SILENCE_MS` defaults to 550 (window 0.55 s) and
`VAD_RMS_THRESHOLD` to 0.08 = 2/25; `BARGE_IN_FRAMES_THRESHOLD` defaults
to 2 and `ENABLE_LOCAL_BARGE_IN` to true. -/

structure VadState where
  consecutiveHighRms : Nat
  recentRmsValues : List ℚ
deriving DecidableEq

/-- `AudioWebSocketClient._check_local_barge_in` (lines 415-453): inactive
when disabled; reset the counter when playback is not running; above the
threshold, bump the counter, remember the RMS (last 10 kept) and fire when
the counter reaches the barge-in threshold (resetting it); below the
threshold, reset the counter. -/
def check_local_barge_in (enable running : Bool) (thr : ℚ) (bargeThr : Nat)
    (st : VadState) (rms : ℚ) : VadState × Bool :=
  if enable = false then (st, false)
  else if running = false then ({ st with consecutiveHighRms := 0 }, false)
  else if thr ≤ rms then
    let recent0 := st.recentRmsValues ++ [rms]
    let recent := if 10 < recent0.length then recent0.tail else recent0
    if bargeThr ≤ st.consecutiveHighRms + 1 then
      ({ consecutiveHighRms := 0, recentRmsValues := recent }, true)
    else
      ({ consecutiveHighRms := st.consecutiveHighRms + 1, recentRmsValues := recent }, false)
  else ({ st with consecutiveHighRms := 0 }, false)

/-- `AudioWebSocketClient._track_voice_activity` (lines 455-495): return
immediately when the silence window is non-positive or the frame is empty
(an empty frame has RMS 0, so both empty-input guards are the RMS tests
shown); return immediately when the RMS is exactly 0; otherwise run the
local barge-in check.  (The `_last_voice_ts` update is wall-clock
bookkeeping and carries no session state used by the claims.) -/
def track_voice_activity (enable running : Bool) (thr window : ℚ) (bargeThr : Nat)
    (st : VadState) (rms : ℚ) : VadState × Bool :=
  if window ≤ 0 then (st, false)
  else if rms = 0 then (st, false)
  else check_local_barge_in enable running thr bargeThr st rms

/-- C6 as stated is false: a frame of all-zero samples has RMS exactly 0,
and `_track_voice_activity` returns before `_check_local_barge_in` runs, so
a `consecutive_high_rms` counter of 1 stays 1 instead of being reset to 0. -/
theorem c6_counterexample :
    (track_voice_activity true true (2/25) (11/20) 2 ⟨1, []⟩ 0).1 = ⟨1, []⟩
    ∧ (1 : Nat) ≠ 0 := by
  refine ⟨?_, by decide⟩
  rw [track_voice_activity, if_neg (by norm_num), if_pos rfl]

/-- C6 amended: with local barge-in enabled and a positive silence window,
any frame whose normalized RMS lies strictly between 0 and the speech
threshold resets `consecutive_high_rms` to 0 (whether or not playback is
running), but a frame whose RMS is exactly 0 — such as all-zero samples —
is ignored and leaves the counter unchanged. -/
theorem c6_vad_reset_amended (running : Bool) (st : VadState)
    (rms thr window : ℚ) (bargeThr : Nat)
    (hw : 0 < window) (h0 : 0 < rms) (hlt : rms < thr) :
    (track_voice_activity true running thr window bargeThr st rms).1.consecutiveHighRms = 0
    ∧ (track_voice_activity true running thr window bargeThr st 0).1 = st := by
  constructor
  · rw [track_voice_activity, if_neg (not_le.mpr hw), if_neg h0.ne']
    rw [check_local_barge_in]
    cases running with
    | false => simp
    | true =>
        have hnle : ¬ thr ≤ rms := not_le.mpr hlt
        simp [hnle]
  · rw [track_voice_activity, if_neg (not_le.mpr hw), if_pos rfl]

/-- Closed witness for the amended C6 at a below-threshold nonzero RMS. -/
theorem c6_vad_reset_amended_witness :
    (track_voice_activity true true (2/25) (11/20) 2 ⟨3, []⟩ (1/25)).1.consecutiveHighRms = 0
    ∧ (track_voice_activity true true (2/25) (11/20) 2 ⟨3, []⟩ 0).1 = ⟨3, []⟩ :=
  c6_vad_reset_amended true ⟨3, []⟩ (1/25) (2/25) (11/20) 2
    (by norm_num) (by norm_num) (by norm_num)

/-! ## Session lifecycle (`main.py`)

In the current `main.py` the block that creates a session's write queue,
`AudioHandler`, `AudioWebSocketClient`, jitter buffer, the priming silence
packet and the two worker tasks is indented inside
`UdpSession._close_conversation_log` (lines 290-328) rather than inside
`__init__` (the backup copy of the file has the same block at the end of
`__init__`).  `__init__` (lines 207-236) therefore only stores the address,
transport, UUID and RTP fields and opens the conversation log.  Moreover the
misplaced block calls `AudioWebSocketClient(session_uuid=…, audio_handler=…,
user_transcript_callback=…, bot_transcript_callback=…)` while the
constructor's parameters are `(session_uuid, audio_handler, voice,
transcript_callback)`, so that call raises `TypeError` before the silence
send and the task starts are reached.  The definitions below record the
externally observable effects of these methods. -/

inductive PyAction where
  | logOpen
  | logClose
  | sendUdp (payload : List Nat) (ip : String) (port : Nat)
  | startTask (name : String)
deriving DecidableEq

def PyAction.isSendUdp : PyAction → Bool
  | PyAction.sendUdp _ _ _ => true
  | _ => false

/-- Attributes assigned by `UdpSession.__init__` (main.py lines 207-236).
Neither `jitter_buffer`, `audio_handler`, `client` nor the task handles are
among them. -/
def udpSessionInitAttrs : List String :=
  ["addr", "transport", "session_uuid", "remote_addr", "protocol",
   "inbound_pt", "ssrc", "seq_out", "ts_out", "_log_file_path", "_log_file"]

/-- External effects of `UdpSession.__init__`: it opens the conversation log
(`_setup_conversation_log`) and sends nothing over UDP. -/
def udpSessionInitActions : List PyAction := [PyAction.logOpen]

/-- Parameter names of `AudioWebSocketClient.__init__`
(audio_websocket_client.py lines 42-48). -/
def audioWebSocketClientParams : List String :=
  ["session_uuid", "audio_handler", "voice", "transcript_callback"]

/-- Keyword arguments of the `AudioWebSocketClient(...)` call inside
`UdpSession._close_conversation_log` (main.py lines 301-306). -/
def clientCallKwargs : List String :=
  ["session_uuid", "audio_handler", "user_transcript_callback",
   "bot_transcript_callback"]

/-- Python keyword binding: the call raises `TypeError` unless every keyword
names a declared parameter (the parameters not passed here all carry
defaults, so unexpected keywords are the only failure mode of this call). -/
def kwargsAccepted (params kwargs : List String) : Bool :=
  kwargs.all (fun k => params.contains k)

/-- Effects of `UdpSession._close_conversation_log` (main.py lines 278-328)
on a session with an open log: write the footer and close the log, then run
the misplaced initialization block — create the write queue and the
`AudioHandler`, call `AudioWebSocketClient(...)`, send the 160-byte zero
packet (the "silence" primer) to the peer and start the client and
write-loop tasks.  When the constructor call's keywords are not accepted it
raises `TypeError` and execution stops there, so the send and the task
starts are never reached; the Bool records completion without exception. -/
def closeConversationLogRun (ip : String) (port : Nat) : List PyAction × Bool :=
  if kwargsAccepted audioWebSocketClientParams clientCallKwargs then
    ([PyAction.logClose, PyAction.sendUdp (List.replicate 160 0) ip port,
      PyAction.startTask "client", PyAction.startTask "write_loop"], true)
  else
    ([PyAction.logClose], false)

/-- `AudioSocketUdpProtocol.register_session_uuid` (main.py lines 451-480):
for an address with an existing session it only rewrites the stored UUID;
for a fresh address it constructs `UdpSession` — running `__init__` and
nothing else — and records the mappings.  The result lists every external
effect of the call. -/
def register_session_uuid (existing : Bool) : List PyAction :=
  if existing then [] else udpSessionInitActions

/-- C1 fails on the code: pre-registration performs no UDP send at all — the
silence-packet send sits inside `_close_conversation_log`, and even there it
is unreachable because the `AudioWebSocketClient(...)` call before it raises
`TypeError` (its keywords are not parameters of the constructor). -/
theorem c1_register_sends_no_packet :
    (register_session_uuid false).filter PyAction.isSendUdp = []
    ∧ (register_session_uuid true).filter PyAction.isSendUdp = []
    ∧ closeConversationLogRun "10.0.0.1" 4000 = ([PyAction.logClose], false) := by
  exact ⟨by decide, by decide, by decide⟩

/-- Result of handing one RTP payload to a session. -/
inductive IngressResult where
  | rejected
  | enqueued (frame : List Nat)
  | attrError
deriving DecidableEq

/-- `UdpSession.handle_incoming_payload` (main.py lines 330-368): decode
A-law to PCM16 when `pt == 8`, otherwise treat the payload as linear PCM16;
return with a warning when the decoded length is not a multiple of
`DEFAULT_SAMPLE_WIDTH` (= 2); then read `self.jitter_buffer` — an attribute
that exists only after the misplaced initialization block has run — and add
the frame to it.  The surrounding `try/except` turns the `AttributeError`
into a logged error: the frame is lost. -/
def handle_incoming_payload (attrs : List String) (payload : List Nat) (pt : Nat) :
    IngressResult :=
  let pcm := if pt = 8 then alaw_to_pcm16 payload else payload
  if pcm.length % 2 ≠ 0 then IngressResult.rejected
  else if attrs.contains "jitter_buffer" then IngressResult.enqueued pcm
  else IngressResult.attrError

/-- C2 fails on the code: a 160-byte A-law frame handed to a freshly
constructed session decodes fine and passes the even-length test, yet is
never enqueued — the `jitter_buffer` attribute does not exist and the
handler swallows the `AttributeError` (first conjunct).  With the attribute
present, as the misplaced block intended, the same frame is decoded and
enqueued (second conjunct), a non-A-law payload of even length is enqueued
as-is (third), and an odd-length linear payload is rejected (fourth). -/
theorem c2_accepted_frame_not_enqueued :
    handle_incoming_payload udpSessionInitAttrs (List.replicate 160 0xD5) 8
      = IngressResult.attrError
    ∧ handle_incoming_payload (udpSessionInitAttrs ++ ["jitter_buffer"])
        (List.replicate 160 0xD5) 8
      = IngressResult.enqueued (alaw_to_pcm16 (List.replicate 160 0xD5))
    ∧ handle_incoming_payload (udpSessionInitAttrs ++ ["jitter_buffer"]) [1, 2, 3, 4] 0
      = IngressResult.enqueued [1, 2, 3, 4]
    ∧ handle_incoming_payload (udpSessionInitAttrs ++ ["jitter_buffer"]) [1, 2, 3] 0
      = IngressResult.rejected := by
  refine ⟨by decide, by decide, by decide, by decide⟩

structure HttpResponse where
  status : Nat
  removedCount : Option Nat
deriving DecidableEq

/-- Whether `UdpSession.cleanup` (main.py lines 370-432) completes: its
first step calls `_close_conversation_log`, whose misplaced initialization
block raises `TypeError` at the `AudioWebSocketClient(...)` call, so
cleanup raises before reaching the mapping removal and task cancellation. -/
def cleanupSucceeds : Bool :=
  (closeConversationLogRun "" 0).2

/-- The `unregister_uuid` HTTP handler (main.py lines 669-724): collect the
addresses of the sessions whose UUID matches, await `cleanup()` on each —
counting only those whose cleanup did not raise (the `except` branch only
logs) — pop every collected address from `sessions` and `uuid_mapping`, and
answer 404 when the counter is zero, else 200 with the counter. -/
def unregister_uuid (sessions : List ((String × Nat) × String))
    (session_uuid : String) : HttpResponse × List ((String × Nat) × String) :=
  let matching := sessions.filter (fun s => s.2 == session_uuid)
  let removedCount := if cleanupSucceeds then matching.length else 0
  let remaining := sessions.filter (fun s => !(s.2 == session_uuid))
  if removedCount = 0 then ({ status := 404, removedCount := none }, remaining)
  else ({ status := 200, removedCount := some removedCount }, remaining)

/-- C3 fails on the code: because every `cleanup()` raises `TypeError` (see
`cleanupSucceeds`), unregistering an *existing* session still answers 404
with no removed count — even though the session is removed from the maps —
contradicting "404 if and only if no session with that session_uuid
exists". -/
theorem c3_unregister_existing_returns_404 :
    cleanupSucceeds = false
    ∧ unregister_uuid [(("10.0.0.1", 4000), "A")] "A"
        = ({ status := 404, removedCount := none }, []) := by
  exact ⟨by decide, by decide⟩
